import Mathlib

/-!
Verification of the WakeWave alarm engine.

The development shallowly embeds the core of the repository:

* `src/alarms.js` — alarm CRUD over a persisted store, the 1-second trigger
  scheduler (`checkAlarms`), snooze overrides, and next-occurrence search
  (`getNextAlarmTime`).
* `src/alarmSound.js` — the in-memory WAV synthesizer header layout and the
  play/stop flag machine (`playAlarmSound` / `stopAlarmSound`).
* `src/spotify.js` — the `playTrack` three-strategy fallback chain.

Clock model: JavaScript `Date` accessors (`getHours`, `getMinutes`,
`getSeconds`, `getDay`, and the `Y-M-D` date string) are modelled over a
single epoch-millisecond counter under a fixed-offset local timezone (no DST),
so `getHours` is `ms / 3600000 % 24`, a calendar day is the epoch-day index
`ms / 86400000`, and `getDay` is `(dayIndex + 4) % 7` (epoch day 0, 1970-01-01,
was a Thursday, weekday 4).  The `Y-M-D` date string of the source is
represented by the epoch-day index: under one fixed offset the two determine
each other, and the code uses the string only for (in)equality of calendar
days.  Floating-point PCM sample synthesis is not modelled; the WAV claims
proved here concern only the container header and declared sample counts.
-/

set_option maxRecDepth 4000

namespace WakeWave

/-- Milliseconds in one minute. -/
def msPerMinute : Nat := 60000

/-- Milliseconds in one hour. -/
def msPerHour : Nat := 3600000

/-- Milliseconds in one day. -/
def msPerDay : Nat := 86400000

/-- Model of `Date.prototype.getHours` under a fixed-offset local time. -/
def msHours (ms : Nat) : Nat := ms / msPerHour % 24

/-- Model of `Date.prototype.getMinutes`. -/
def msMinutes (ms : Nat) : Nat := ms / msPerMinute % 60

/-- Model of `Date.prototype.getSeconds`. -/
def msSeconds (ms : Nat) : Nat := ms / 1000 % 60

/-- Epoch-day index of an instant; stands for the `YYYY-M-D` date string of
`checkAlarms` (two instants have equal date strings iff equal day indices
under a fixed timezone offset). -/
def msDayIndex (ms : Nat) : Nat := ms / msPerDay

/-- Model of `Date.prototype.getDay` (0 = Sunday … 6 = Saturday); epoch day 0
was a Thursday. -/
def msWeekday (ms : Nat) : Nat := (msDayIndex ms + 4) % 7

/-- Model of `n.toString().padStart(2, '0')` for a nonnegative number. -/
def pad2 (n : Nat) : String :=
  let s := toString n
  if s.length < 2 then "0" ++ s else s

/-- Current-time string `` `${getHours.padStart(2,'0')}:${getMinutes.padStart(2,'0')}` ``. -/
def hhmm (ms : Nat) : String :=
  pad2 (msHours ms) ++ ":" ++ pad2 (msMinutes ms)

instance {e a : Type} [DecidableEq e] [DecidableEq a] : DecidableEq (Except e a) :=
  fun x y =>
    match x, y with
    | .error u, .error v => decidable_of_iff (u = v) (by simp)
    | .ok u, .ok v => decidable_of_iff (u = v) (by simp)
    | .error _, .ok _ => isFalse (by simp)
    | .ok _, .error _ => isFalse (by simp)

/-- Alarm record as created by `createAlarm` in `src/alarms.js`. -/
structure Alarm where
  id : String
  time : String
  label : String
  trackUri : String
  trackName : String
  trackArtist : String
  trackImage : String
  enabled : Bool
  days : List Nat
  createdAt : Nat
deriving Repr, DecidableEq

/-- Association-list model of the `snoozedAlarms` JavaScript `Map`
(alarm id → absolute snooze wake instant in epoch ms). -/
abbrev SnoozeMap : Type := List (String × Nat)

/-- Model of `Map.prototype.get`. -/
def mapGet (m : SnoozeMap) (k : String) : Option Nat :=
  (m.find? (fun p => p.1 = k)).map (fun p => p.2)

/-- Model of `Map.prototype.set` (overwrites in place, else appends). -/
def mapSet (m : SnoozeMap) (k : String) (v : Nat) : SnoozeMap :=
  if m.any (fun p => p.1 = k) then
    m.map (fun p => if p.1 = k then (k, v) else p)
  else
    m ++ [(k, v)]

/-- Model of `Map.prototype.delete`. -/
def mapDelete (m : SnoozeMap) (k : String) : SnoozeMap :=
  m.filter (fun p => p.1 ≠ k)

/-- Minute key `` `${currentTime}-${dateStr}` `` (time string, epoch-day index). -/
abbrev MinuteKey : Type := String × Nat

/-- Trigger key `` `${minuteKey}-${currentDay}` ``. -/
abbrev TriggerKey : Type := MinuteKey × Nat

/-- Minute key of an instant. -/
def minuteKeyOf (ms : Nat) : MinuteKey := (hhmm ms, msDayIndex ms)

/-- Trigger key of an instant. -/
def triggerKeyOf (ms : Nat) : TriggerKey := (minuteKeyOf ms, msWeekday ms)

/-- Mutable module-level scheduler state of `src/alarms.js`: the snooze map
and the two dedup keys (`''` initial values become `none`). -/
structure SchedState where
  snoozed : SnoozeMap
  lastMinuteKey : Option MinuteKey
  lastTriggeredKey : Option TriggerKey
deriving DecidableEq

/-- Initial scheduler state (`new Map()`, `''`, `''`). -/
def initState : SchedState := ⟨[], none, none⟩

/-- Result of one `checkAlarms` tick: updated scheduler state, updated
persisted store, and the alarm passed to `onAlarmTrigger` (if any). -/
structure TickResult where
  state : SchedState
  store : List Alarm
  fired : Option Alarm
deriving DecidableEq

/-- Model of `updateAlarm(id, { enabled: false })` as performed inside
`checkAlarms`: the first stored record with the id has `enabled` cleared
(`findIndex` + spread + save). -/
def disableFirst : List Alarm → String → List Alarm
  | [], _ => []
  | b :: bs, i =>
    if b.id = i then { b with enabled := false } :: bs
    else b :: disableFirst bs i

/-- Scan loop of `checkAlarms` over the stored alarms: first the snooze
branch (JavaScript truthiness of the stored ms value: `undefined` and `0`
both skip the branch), then the time/day match; fires at most one alarm and
returns.  `store` is the full persisted list the loop started from. -/
def scanAlarms (currentTime : String) (currentDay : Nat) (triggerKey : TriggerKey)
    (store : List Alarm) : List Alarm → SchedState → SchedState × List Alarm × Option Alarm
  | [], st => (st, store, none)
  | a :: rest, st =>
    if !a.enabled then scanAlarms currentTime currentDay triggerKey store rest st
    else
      let snoozeTime := (mapGet st.snoozed a.id).getD 0
      if snoozeTime ≠ 0 then
        if currentTime = hhmm snoozeTime then
          ({ st with snoozed := mapDelete st.snoozed a.id,
                     lastTriggeredKey := some triggerKey }, store, some a)
        else
          scanAlarms currentTime currentDay triggerKey store rest st
      else
        if a.time ≠ currentTime then
          scanAlarms currentTime currentDay triggerKey store rest st
        else if a.days ≠ [] ∧ ¬ a.days.contains currentDay then
          scanAlarms currentTime currentDay triggerKey store rest st
        else
          ({ st with lastTriggeredKey := some triggerKey },
           if a.days = [] then disableFirst store a.id else store,
           some a)

/-- Model of `checkAlarms()` in `src/alarms.js`, one tick at instant `nowMs`
over persisted store `store` and scheduler state `st`. -/
def checkAlarms (nowMs : Nat) (store : List Alarm) (st : SchedState) : TickResult :=
  let currentTime := hhmm nowMs
  let currentDay := msWeekday nowMs
  let currentSeconds := msSeconds nowMs
  let minuteKey : MinuteKey := (currentTime, msDayIndex nowMs)
  let triggerKey : TriggerKey := (minuteKey, currentDay)
  let st1 :=
    if st.lastMinuteKey ≠ some minuteKey then
      { st with lastMinuteKey := some minuteKey, lastTriggeredKey := none }
    else st
  if currentSeconds ≠ 0 then ⟨st1, store, none⟩
  else if st1.lastTriggeredKey = some triggerKey then ⟨st1, store, none⟩
  else
    let r := scanAlarms currentTime currentDay triggerKey store store st1
    ⟨r.1, r.2.1, r.2.2⟩

/-- Module-level flags of `src/alarmSound.js` (`isUnlocked`, `alarmPlaying`). -/
structure AudioState where
  isUnlocked : Bool
  alarmPlaying : Bool
deriving Repr, DecidableEq

/-- Model of `playAlarmSound()`: rewinds and plays the cached element, sets
the `alarmPlaying` flag synchronously and returns `true`.  `platformRejects`
models the element's `play()` promise rejecting; the source only logs the
rejection and schedules a retry, so neither the flag nor the return value
depends on it. -/
def playAlarmSound (audio : AudioState) (platformRejects : Bool) : Bool × AudioState :=
  let _ := platformRejects
  (true, { audio with alarmPlaying := true })

/-- Model of `stopAlarmSound()`: pauses, rewinds, clears the flag. -/
def stopAlarmSound (audio : AudioState) : AudioState :=
  { audio with alarmPlaying := false }

/-- Model of `isAlarmSoundPlaying()`. -/
def isAlarmSoundPlaying (audio : AudioState) : Bool :=
  audio.alarmPlaying

/-- Model of `unlockAudio()`: a no-op when already unlocked, otherwise issues
the play-pause registration and keepalive start (DOM effects) and sets
`isUnlocked`; the `alarmPlaying` flag is untouched. -/
def unlockAudio (audio : AudioState) : AudioState :=
  if audio.isUnlocked then audio else { audio with isUnlocked := true }

/-- Model of `pausePlayback()` as far as local audio is concerned: it calls
`stopAlarmSound()` (the remote SDK/Connect pauses are external effects). -/
def pausePlayback (audio : AudioState) : AudioState :=
  stopAlarmSound audio

/-- Model of `snoozeAlarm(alarmId, minutes)` at instant `nowMs`: overwrite the
override with `Date.now() + minutes * 60 * 1000` and call `pausePlayback()`. -/
def snoozeAlarm (nowMs : Nat) (st : SchedState) (audio : AudioState)
    (alarmId : String) (minutes : Nat) : SchedState × AudioState :=
  ({ st with snoozed := mapSet st.snoozed alarmId (nowMs + minutes * 60 * 1000) },
   pausePlayback audio)

/-- Model of `dismissAlarm()`: only `pausePlayback()`. -/
def dismissAlarm (audio : AudioState) : AudioState :=
  pausePlayback audio

/-- Backing `localStorage` content under the `wakewave_alarms` key:
absent (`getItem` returns `null`), unreadable (`getItem` or `JSON.parse`
throws), or a parsed list. -/
inductive StoredData
  | missing
  | corrupt
  | valid (alarms : List Alarm)
deriving DecidableEq

/-- Abstract backing store: its current content plus whether `setItem`
throws (e.g. quota exceeded). -/
structure Storage where
  data : StoredData
  writeFails : Bool
deriving DecidableEq

/-- Model of `loadAlarms()`: `try { JSON.parse(getItem) ?? [] } catch { [] }`. -/
def loadAlarms (s : Storage) : List Alarm :=
  match s.data with
  | .valid l => l
  | _ => []

/-- Model of `saveAlarms(alarms)`: a bare `localStorage.setItem` with no
`try`/`catch`, so a write fault escapes as `Except.error`. -/
def saveAlarms (s : Storage) (l : List Alarm) : Except Unit Storage :=
  if s.writeFails then .error () else .ok { s with data := .valid l }

/-- Model of `getAlarms()`. -/
def getAlarms (s : Storage) : List Alarm :=
  loadAlarms s

/-- Model of `getAlarm(id)`. -/
def getAlarm (s : Storage) (id : String) : Option Alarm :=
  (loadAlarms s).find? (fun a => a.id = id)

/-- Field object accepted by `createAlarm` (defaults as in the source). -/
structure AlarmFields where
  time : String
  label : String := ""
  trackUri : String := ""
  trackName : String := ""
  trackArtist : String := ""
  trackImage : String := ""
  enabled : Bool := true
  days : List Nat := []
deriving DecidableEq

/-- The record object built by `createAlarm`: `newId` stands for
`crypto.randomUUID()` and `createdAt` for `Date.now()`. -/
def mkAlarmRecord (newId : String) (createdAt : Nat) (f : AlarmFields) : Alarm :=
  { id := newId, time := f.time, label := f.label, trackUri := f.trackUri,
    trackName := f.trackName, trackArtist := f.trackArtist,
    trackImage := f.trackImage, enabled := f.enabled, days := f.days,
    createdAt := createdAt }

/-- Model of `createAlarm(fields)`: the record is appended and the whole
list saved. -/
def createAlarm (s : Storage) (newId : String) (createdAt : Nat)
    (f : AlarmFields) : Except Unit (Storage × Alarm) :=
  let alarms := loadAlarms s
  let alarm := mkAlarmRecord newId createdAt f
  (saveAlarms s (alarms ++ [alarm])).map (fun s2 => (s2, alarm))

/-- Patch object of `updateAlarm`: any subset of fields, the `id` field
included — the source spread `{ ...alarms[idx], ...updates }` overwrites
whatever keys the patch carries. -/
structure AlarmPatch where
  id : Option String := none
  time : Option String := none
  label : Option String := none
  trackUri : Option String := none
  trackName : Option String := none
  trackArtist : Option String := none
  trackImage : Option String := none
  enabled : Option Bool := none
  days : Option (List Nat) := none
deriving DecidableEq

/-- Spread `{ ...a, ...p }`. -/
def applyPatch (a : Alarm) (p : AlarmPatch) : Alarm :=
  { id := p.id.getD a.id, time := p.time.getD a.time, label := p.label.getD a.label,
    trackUri := p.trackUri.getD a.trackUri, trackName := p.trackName.getD a.trackName,
    trackArtist := p.trackArtist.getD a.trackArtist,
    trackImage := p.trackImage.getD a.trackImage,
    enabled := p.enabled.getD a.enabled, days := p.days.getD a.days,
    createdAt := a.createdAt }

/-- Patch applied at the first index whose record has the id (`findIndex`). -/
def patchFirst (p : AlarmPatch) : List Alarm → String → List Alarm
  | [], _ => []
  | b :: bs, i =>
    if b.id = i then applyPatch b p :: bs
    else b :: patchFirst p bs i

/-- Model of `updateAlarm(id, updates)`: `null` (here `none`) without saving
when the id is absent, else patch the first match and save. -/
def updateAlarm (s : Storage) (id : String) (p : AlarmPatch) :
    Except Unit (Storage × Option Alarm) :=
  let alarms := loadAlarms s
  match alarms.find? (fun a => a.id = id) with
  | none => .ok (s, none)
  | some a =>
    (saveAlarms s (patchFirst p alarms id)).map (fun s2 => (s2, some (applyPatch a p)))

/-- Model of `deleteAlarm(id)`: filter, save, then drop any snooze override. -/
def deleteAlarm (s : Storage) (st : SchedState) (id : String) :
    Except Unit (Storage × SchedState) :=
  (saveAlarms s ((loadAlarms s).filter (fun a => a.id ≠ id))).map
    (fun s2 => (s2, { st with snoozed := mapDelete st.snoozed id }))

/-- `enabled` toggled at the first index whose record has the id (`find`). -/
def toggleFirst : List Alarm → String → List Alarm
  | [], _ => []
  | b :: bs, i =>
    if b.id = i then { b with enabled := !b.enabled } :: bs
    else b :: toggleFirst bs i

/-- Model of `toggleAlarm(id)`: no-op without saving when the id is absent,
else flip `enabled` on the first match and save. -/
def toggleAlarm (s : Storage) (id : String) : Except Unit Storage :=
  if (loadAlarms s).any (fun a => a.id = id) then
    saveAlarms s (toggleFirst (loadAlarms s) id)
  else
    .ok s

/-- `String.prototype.split(sep)` over the character list (structural, so a
closed instance can be evaluated by the kernel). -/
def splitChar (sep : Char) : List Char → List (List Char)
  | [] => [[]]
  | c :: cs =>
    match splitChar sep cs with
    | [] => [[]]
    | g :: gs => if c = sep then [] :: g :: gs else (c :: g) :: gs

/-- Decimal value of a digit string (the value `Number` gives a digit-only
string). -/
def digitsValAux : List Char → Nat → Nat
  | [], acc => acc
  | c :: cs, acc => digitsValAux cs (acc * 10 + (c.toNat - 48))

/-- Model of `alarm.time.split(':').map(Number)` for the digit-only `HH:MM`
strings the engine stores (a `NaN` from a malformed string is not modelled;
the next-occurrence theorems assume a well-formed time). -/
def parseHM (s : String) : Nat × Nat :=
  match (splitChar ':' s.toList).map (fun cs => digitsValAux cs 0) with
  | h :: m :: _ => (h, m)
  | [h] => (h, 0)
  | [] => (0, 0)

/-- Fuel-bounded search mirroring the `for (let i = 0; i < 7; i++)` loop of
`getNextAlarmTime` with its `break`: the first `i` (counting up from the
start index) satisfying `p`, trying `fuel` values. -/
def scanDaysAux (p : Nat → Bool) : Nat → Nat → Option Nat
  | _, 0 => none
  | i, fuel + 1 => if p i then some i else scanDaysAux p (i + 1) fuel

/-- Instant "`i` days after today, at `h:m:00.000`" — the value of
`checkDate` built by `setDate(getDate() + i); setHours(h, m, 0, 0)`. -/
def dayStartPlus (nowMs i h m : Nat) : Nat :=
  (msDayIndex nowMs + i) * msPerDay + h * msPerHour + m * msPerMinute

/-- Candidate day predicate of the inner loop: `checkDate > now` (the source
`continue`s on `checkDate <= now`) and the weekday is in `days`. -/
def dayCandidate (nowMs : Nat) (days : List Nat) (h m i : Nat) : Bool :=
  decide (nowMs < dayStartPlus nowMs i h m) &&
    days.contains (msWeekday (dayStartPlus nowMs i h m))

/-- The naive candidate of `getNextAlarmTime`: today at `h:m`, pushed one day
ahead when `alarmDate <= now`. -/
def naiveCandidate (nowMs h m : Nat) : Nat :=
  let base := dayStartPlus nowMs 0 h m
  if base ≤ nowMs then base + msPerDay else base

/-- Value of `alarmDate` computed by `getNextAlarmTime` for one alarm: today
at `time`, pushed to tomorrow when already past, then overwritten by the
first of the next 7 days whose weekday is in `days` and whose instant is
still in the future (when `days` is non-empty and the scan succeeds). -/
def nextCandidate (nowMs : Nat) (a : Alarm) : Nat :=
  let hm := parseHM a.time
  if a.days ≠ [] then
    match scanDaysAux (dayCandidate nowMs a.days hm.1 hm.2) 0 7 with
    | some i => dayStartPlus nowMs i hm.1 hm.2
    | none => naiveCandidate nowMs hm.1 hm.2
  else naiveCandidate nowMs hm.1 hm.2

/-- Return object of `getNextAlarmTime`: `{ alarm, time, diff }`. -/
structure NextAlarm where
  alarm : Alarm
  time : Nat
  diff : Nat
deriving DecidableEq

/-- Accumulator loop of `getNextAlarmTime` (`closestDiff` starts at
`Infinity`, modelled by `none`; the comparison is strict, so the earliest
stored alarm wins ties). -/
def nextLoop (nowMs : Nat) : List Alarm → Option NextAlarm → Option NextAlarm
  | [], best => best
  | a :: rest, best =>
    let t := nextCandidate nowMs a
    let diff := t - nowMs
    let best2 :=
      match best with
      | none => some ⟨a, t, diff⟩
      | some b => if diff < b.diff then some ⟨a, t, diff⟩ else best
    nextLoop nowMs rest best2

/-- Model of `getNextAlarmTime(alarms)` at instant `nowMs`. -/
def getNextAlarmTime (nowMs : Nat) (alarms : List Alarm) : Option NextAlarm :=
  let enabled := alarms.filter (fun a => a.enabled)
  if enabled.isEmpty then none
  else nextLoop nowMs enabled none

/-- Little-endian bytes of `DataView.setUint16`. -/
def u16le (n : Nat) : List Nat :=
  [n % 256, n / 256 % 256]

/-- Little-endian bytes of `DataView.setUint32`. -/
def u32le (n : Nat) : List Nat :=
  [n % 256, n / 256 % 256, n / 65536 % 256, n / 16777216 % 256]

/-- Bytes written by the `writeStr` helper (`charCodeAt` per character). -/
def asciiBytes (s : String) : List Nat :=
  s.toList.map Char.toNat

/-- Declared sample rate of `generateAlarmWav`. -/
def alarmSampleRate : Nat := 44100

/-- Declared duration of `generateAlarmWav` in seconds. -/
def alarmDurationSeconds : Nat := 120

/-- `numSamples = sampleRate * duration`. -/
def alarmNumSamples : Nat := alarmSampleRate * alarmDurationSeconds

/-- Size of the `ArrayBuffer` allocated by `generateAlarmWav`
(`44 + numSamples * 2`). -/
def alarmWavByteLength : Nat := 44 + alarmNumSamples * 2

/-- The 44 header bytes written by `generateAlarmWav` at offsets 0–43, field
by field in source order (RIFF id, ChunkSize, WAVE id, fmt chunk, PCM format,
mono, SampleRate, ByteRate, BlockAlign, BitsPerSample, data id,
Subchunk2Size).  The sample words at offsets ≥ 44 are synthesized from
floating-point sines and are outside this model. -/
def alarmWavHeader : List Nat :=
  asciiBytes "RIFF" ++ u32le (36 + alarmNumSamples * 2) ++ asciiBytes "WAVE" ++
  asciiBytes "fmt " ++ u32le 16 ++ u16le 1 ++ u16le 1 ++ u32le alarmSampleRate ++
  u32le (alarmSampleRate * 2) ++ u16le 2 ++ u16le 16 ++ asciiBytes "data" ++
  u32le (alarmNumSamples * 2)

/-- Little-endian 32-bit read-back from a byte list (`DataView.getUint32`). -/
def readU32le (bytes : List Nat) (off : Nat) : Nat :=
  bytes.getD off 0 + bytes.getD (off + 1) 0 * 256 +
  bytes.getD (off + 2) 0 * 65536 + bytes.getD (off + 3) 0 * 16777216

/-- Model of `openSpotifyDeepLink(trackUri)` in `src/alarmSound.js`: returns
the track id it navigates to (`trackUri.split(':')[2]`), or `none` when the
guards bail out (`!trackUri` or `!trackId`). -/
def openSpotifyDeepLink (trackUri : String) : Option String :=
  if trackUri = "" then none
  else
    match (splitChar ':' trackUri.toList).get? 2 with
    | none => none
    | some cs => if cs = [] then none else some (String.mk cs)

/-- Remote playback device as reported by `/me/player/devices`. -/
structure Device where
  id : String
  isActive : Bool
deriving DecidableEq

/-- Outcome of one `fetch` call as `playTrack` distinguishes them:
`res.ok || res.status === 204`, a non-ok response (logged, fall through), or
a thrown/rejected fetch (caught, fall through). -/
inductive FetchResult
  | ok
  | fail
  | throws
deriving DecidableEq

/-- Environment of one `playTrack` call: the registered SDK `deviceId`, the
outcomes of the strategy-1 play request, the device-list query (a throw
anywhere in the strategy-2 `try` block collapses to `Except.error`), the
strategy-2 play request, and whether the local element's `play()` rejects. -/
structure PlayEnv where
  deviceId : Option String
  sdkPlay : FetchResult
  devicesQuery : Except Unit (List Device)
  connectPlay : FetchResult
  platformRejectsAudio : Bool
deriving DecidableEq

/-- Resolution value of `playTrack`: `true`, `'connect'`, or `'fallback'`. -/
inductive PlayOutcome
  | sdkTrue
  | connect
  | fallback
deriving DecidableEq

/-- Observable result of `playTrack`: the resolution value, whether the
strategy-2 device query was issued, whether `playAlarmSound()` was invoked,
the deep-link target (if `openSpotifyDeepLink` was invoked and navigated),
and the local audio state afterwards. -/
structure PlayTrackResult where
  outcome : PlayOutcome
  devicesQueried : Bool
  alarmSoundStarted : Bool
  deepLink : Option String
  audio : AudioState
deriving DecidableEq

/-- Model of `playTrack(trackUri)` in `src/spotify.js` (the three-strategy
version).  `ensureValidToken` never throws (`refreshAccessToken` catches
everything and returns a boolean), so the call's control flow is decided by
the strategy outcomes alone. -/
def playTrack (env : PlayEnv) (audio : AudioState) (trackUri : String) : PlayTrackResult :=
  let s1ok : Bool :=
    match env.deviceId with
    | some _ => decide (env.sdkPlay = FetchResult.ok)
    | none => false
  if s1ok then
    ⟨.sdkTrue, false, false, none, audio⟩
  else
    let fallbackResult : PlayTrackResult :=
      ⟨.fallback, true, true, openSpotifyDeepLink trackUri,
        (playAlarmSound audio env.platformRejectsAudio).2⟩
    match env.devicesQuery with
    | .error _ => fallbackResult
    | .ok devices =>
      let activeDevice :=
        match devices.find? (fun d => d.isActive) with
        | some d => some d
        | none => devices.head?
      match activeDevice with
      | none => fallbackResult
      | some _ =>
        if env.connectPlay = FetchResult.ok then ⟨.connect, true, false, none, audio⟩
        else fallbackResult


def eligibleB (currentTime : String) (currentDay : Nat) (snoozed : SnoozeMap) (a : Alarm) : Bool :=
  a.enabled &&
    (let snoozeTime := (mapGet snoozed a.id).getD 0
     if snoozeTime ≠ 0 then decide (currentTime = hhmm snoozeTime)
     else decide (a.time = currentTime) && (decide (a.days = []) || a.days.contains currentDay))

theorem scanAlarms_fired_eq_find (ct : String) (cd : Nat) (tk : TriggerKey)
    (store : List Alarm) (l : List Alarm) (st : SchedState) :
    (scanAlarms ct cd tk store l st).2.2 = l.find? (eligibleB ct cd st.snoozed) := by
  induction l with
  | nil => rfl
  | cons a rest ih =>
    rcases he : a.enabled with _ | _
    · simp [scanAlarms, List.find?, eligibleB, he, ih]
    · by_cases hsz : ((mapGet st.snoozed a.id).getD 0) ≠ 0
      · by_cases hct : ct = hhmm ((mapGet st.snoozed a.id).getD 0)
        · simp [scanAlarms, List.find?, eligibleB, he, hsz, hct]
        · simp [scanAlarms, List.find?, eligibleB, he, hsz, hct, ih]
      · by_cases htm : a.time = ct
        · by_cases hde : a.days = []
          · simp [scanAlarms, List.find?, eligibleB, he, hsz, htm, hde]
          · by_cases hdc : cd ∈ a.days
            · simp [scanAlarms, List.find?, eligibleB, he, hsz, htm, hde, hdc]
            · simp [scanAlarms, List.find?, eligibleB, he, hsz, htm, hde, hdc, ih]
        · simp [scanAlarms, List.find?, eligibleB, he, hsz, htm, ih]

theorem scanAlarms_lastMinuteKey (ct : String) (cd : Nat) (tk : TriggerKey)
    (store : List Alarm) (l : List Alarm) (st : SchedState) :
    (scanAlarms ct cd tk store l st).1.lastMinuteKey = st.lastMinuteKey := by
  induction l with
  | nil => rfl
  | cons a rest ih =>
    simp only [scanAlarms]
    split
    · exact ih
    · split
      · split
        · rfl
        · exact ih
      · split
        · exact ih
        · split
          · exact ih
          · rfl

theorem scanAlarms_state_of_none (ct : String) (cd : Nat) (tk : TriggerKey)
    (store : List Alarm) (l : List Alarm) (st : SchedState)
    (h : (scanAlarms ct cd tk store l st).2.2 = none) :
    (scanAlarms ct cd tk store l st).1 = st ∧
      (scanAlarms ct cd tk store l st).2.1 = store := by
  induction l with
  | nil => exact ⟨rfl, rfl⟩
  | cons a rest ih =>
    rcases he : a.enabled with _ | _
    · simp [scanAlarms, he] at h ⊢
      exact ih h
    · by_cases hsz : ((mapGet st.snoozed a.id).getD 0) ≠ 0
      · by_cases hct : ct = hhmm ((mapGet st.snoozed a.id).getD 0)
        · simp [scanAlarms, he, hsz, hct] at h
        · simp [scanAlarms, he, hsz, hct] at h ⊢
          exact ih h
      · by_cases htm : a.time = ct
        · by_cases hde : a.days = []
          · simp [scanAlarms, he, hsz, htm, hde] at h
          · by_cases hdc : cd ∈ a.days
            · simp [scanAlarms, he, hsz, htm, hde, hdc] at h
            · simp [scanAlarms, he, hsz, htm, hde, hdc] at h ⊢
              exact ih h
        · simp [scanAlarms, he, hsz, htm] at h ⊢
          exact ih h

theorem scanAlarms_fired_lastTriggeredKey (ct : String) (cd : Nat) (tk : TriggerKey)
    (store : List Alarm) (l : List Alarm) (st : SchedState) (a : Alarm)
    (h : (scanAlarms ct cd tk store l st).2.2 = some a) :
    (scanAlarms ct cd tk store l st).1.lastTriggeredKey = some tk := by
  induction l with
  | nil => simp [scanAlarms] at h
  | cons b rest ih =>
    rcases he : b.enabled with _ | _
    · simp [scanAlarms, he] at h ⊢
      exact ih h
    · by_cases hsz : ((mapGet st.snoozed b.id).getD 0) ≠ 0
      · by_cases hct : ct = hhmm ((mapGet st.snoozed b.id).getD 0)
        · simp [scanAlarms, he, hsz, hct]
        · simp [scanAlarms, he, hsz, hct] at h ⊢
          exact ih h
      · by_cases htm : b.time = ct
        · by_cases hde : b.days = []
          · simp [scanAlarms, he, hsz, htm, hde]
          · by_cases hdc : cd ∈ b.days
            · simp [scanAlarms, he, hsz, htm, hde, hdc]
            · simp [scanAlarms, he, hsz, htm, hde, hdc] at h ⊢
              exact ih h
        · simp [scanAlarms, he, hsz, htm] at h ⊢
          exact ih h

theorem scanAlarms_fired_snoozed (ct : String) (cd : Nat) (tk : TriggerKey)
    (store : List Alarm) (l : List Alarm) (st : SchedState) (a : Alarm)
    (h : (scanAlarms ct cd tk store l st).2.2 = some a) :
    ((mapGet st.snoozed a.id).getD 0 ≠ 0 ∧
       (scanAlarms ct cd tk store l st).1.snoozed = mapDelete st.snoozed a.id) ∨
    ((mapGet st.snoozed a.id).getD 0 = 0 ∧
       (scanAlarms ct cd tk store l st).1.snoozed = st.snoozed) := by
  induction l with
  | nil => simp [scanAlarms] at h
  | cons b rest ih =>
    rcases he : b.enabled with _ | _
    · simp [scanAlarms, he] at h ⊢
      exact ih h
    · by_cases hsz : ((mapGet st.snoozed b.id).getD 0) ≠ 0
      · by_cases hct : ct = hhmm ((mapGet st.snoozed b.id).getD 0)
        · simp [scanAlarms, he, hsz, hct] at h
          subst h
          exact Or.inl ⟨hsz, by simp [scanAlarms, he, hsz, hct]⟩
        · simp [scanAlarms, he, hsz, hct] at h ⊢
          exact ih h
      · have hz : (mapGet st.snoozed b.id).getD 0 = 0 := by omega
        by_cases htm : b.time = ct
        · by_cases hde : b.days = []
          · simp [scanAlarms, he, hsz, htm, hde] at h
            subst h
            exact Or.inr ⟨hz, by simp [scanAlarms, he, hsz, htm, hde]⟩
          · by_cases hdc : cd ∈ b.days
            · simp [scanAlarms, he, hsz, htm, hde, hdc] at h
              subst h
              exact Or.inr ⟨hz, by simp [scanAlarms, he, hsz, htm, hde, hdc]⟩
            · simp [scanAlarms, he, hsz, htm, hde, hdc] at h ⊢
              exact ih h
        · simp [scanAlarms, he, hsz, htm] at h ⊢
          exact ih h

theorem scanAlarms_store_of_fired (ct : String) (cd : Nat) (tk : TriggerKey)
    (store : List Alarm) (l : List Alarm) (st : SchedState) (a : Alarm)
    (h : (scanAlarms ct cd tk store l st).2.2 = some a) :
    (scanAlarms ct cd tk store l st).2.1 =
      if (mapGet st.snoozed a.id).getD 0 = 0 ∧ a.days = [] then disableFirst store a.id
      else store := by
  induction l with
  | nil => simp [scanAlarms] at h
  | cons b rest ih =>
    rcases he : b.enabled with _ | _
    · simp [scanAlarms, he] at h ⊢
      exact ih h
    · by_cases hsz : ((mapGet st.snoozed b.id).getD 0) ≠ 0
      · by_cases hct : ct = hhmm ((mapGet st.snoozed b.id).getD 0)
        · simp [scanAlarms, he, hsz, hct] at h
          subst h
          simp [scanAlarms, he, hsz, hct]
        · simp [scanAlarms, he, hsz, hct] at h ⊢
          exact ih h
      · have hz : (mapGet st.snoozed b.id).getD 0 = 0 := by omega
        by_cases htm : b.time = ct
        · by_cases hde : b.days = []
          · simp [scanAlarms, he, hsz, htm, hde] at h
            subst h
            simp [scanAlarms, he, hsz, hz, htm, hde]
          · by_cases hdc : cd ∈ b.days
            · simp [scanAlarms, he, hsz, htm, hde, hdc] at h
              subst h
              simp [scanAlarms, he, hsz, htm, hde, hdc]
            · simp [scanAlarms, he, hsz, htm, hde, hdc] at h ⊢
              exact ih h
        · simp [scanAlarms, he, hsz, htm] at h ⊢
          exact ih h

theorem scanAlarms_fired_enabled (ct : String) (cd : Nat) (tk : TriggerKey)
    (store : List Alarm) (l : List Alarm) (st : SchedState) (a : Alarm)
    (h : (scanAlarms ct cd tk store l st).2.2 = some a) :
    a.enabled = true ∧ a ∈ l := by
  rw [scanAlarms_fired_eq_find] at h
  have hp := List.find?_some h
  have hm := List.mem_of_find?_eq_some h
  refine ⟨?_, hm⟩
  simp [eligibleB] at hp
  exact hp.1


theorem checkAlarms_fired_eq (nowMs : Nat) (store : List Alarm) (st : SchedState) :
    (checkAlarms nowMs store st).fired =
      if msSeconds nowMs ≠ 0 then none
      else if st.lastMinuteKey = some (minuteKeyOf nowMs) ∧
                st.lastTriggeredKey = some (triggerKeyOf nowMs) then none
      else store.find? (eligibleB (hhmm nowMs) (msWeekday nowMs) st.snoozed) := by
  simp only [checkAlarms, minuteKeyOf, triggerKeyOf]
  by_cases hm : st.lastMinuteKey = some (hhmm nowMs, msDayIndex nowMs)
  · by_cases hs : msSeconds nowMs ≠ 0
    · simp [hm, hs]
    · by_cases htk : st.lastTriggeredKey = some ((hhmm nowMs, msDayIndex nowMs), msWeekday nowMs)
      · simp [hm, hs, htk]
      · simp [hm, hs, htk, scanAlarms_fired_eq_find]
  · by_cases hs : msSeconds nowMs ≠ 0
    · simp [hm, hs]
    · simp [hm, hs, scanAlarms_fired_eq_find]

theorem checkAlarms_state_lastMinuteKey (nowMs : Nat) (store : List Alarm) (st : SchedState) :
    (checkAlarms nowMs store st).state.lastMinuteKey = some (minuteKeyOf nowMs) := by
  simp only [checkAlarms, minuteKeyOf]
  by_cases hm : st.lastMinuteKey = some (hhmm nowMs, msDayIndex nowMs)
  · by_cases hs : msSeconds nowMs ≠ 0
    · simp [hm, hs]
    · by_cases htk : st.lastTriggeredKey = some (((hhmm nowMs, msDayIndex nowMs) : MinuteKey), msWeekday nowMs)
      · simp [hm, hs, htk]
      · simp [hm, hs, htk, scanAlarms_lastMinuteKey]
  · by_cases hs : msSeconds nowMs ≠ 0
    · simp [hm, hs]
    · simp [hm, hs, scanAlarms_lastMinuteKey]

theorem checkAlarms_fired_lastTriggeredKey (nowMs : Nat) (store : List Alarm)
    (st : SchedState) (a : Alarm) (h : (checkAlarms nowMs store st).fired = some a) :
    (checkAlarms nowMs store st).state.lastTriggeredKey = some (triggerKeyOf nowMs) := by
  simp only [checkAlarms, minuteKeyOf, triggerKeyOf] at h ⊢
  by_cases hm : st.lastMinuteKey = some (hhmm nowMs, msDayIndex nowMs)
  · by_cases hs : msSeconds nowMs ≠ 0
    · simp [hm, hs] at h
    · by_cases htk : st.lastTriggeredKey = some (((hhmm nowMs, msDayIndex nowMs) : MinuteKey), msWeekday nowMs)
      · simp [hm, hs, htk] at h
      · simp [hm, hs, htk] at h ⊢
        exact scanAlarms_fired_lastTriggeredKey _ _ _ _ _ _ _ h
  · by_cases hs : msSeconds nowMs ≠ 0
    · simp [hm, hs] at h
    · simp [hm, hs] at h ⊢
      exact scanAlarms_fired_lastTriggeredKey _ _ _ _ _ _ _ h

theorem checkAlarms_none_frame (nowMs : Nat) (store : List Alarm) (st : SchedState)
    (h : (checkAlarms nowMs store st).fired = none) :
    (checkAlarms nowMs store st).state.snoozed = st.snoozed ∧
      (checkAlarms nowMs store st).store = store := by
  simp only [checkAlarms] at h ⊢
  by_cases hm : st.lastMinuteKey = some ((hhmm nowMs, msDayIndex nowMs) : MinuteKey)
  · by_cases hs : msSeconds nowMs ≠ 0
    · simp [hm, hs]
    · by_cases htk : st.lastTriggeredKey = some (((hhmm nowMs, msDayIndex nowMs) : MinuteKey), msWeekday nowMs)
      · simp [hm, hs, htk]
      · simp [hm, hs, htk] at h ⊢
        have := scanAlarms_state_of_none (hhmm nowMs) (msWeekday nowMs) _ store store st h
        exact ⟨by rw [this.1], this.2⟩
  · by_cases hs : msSeconds nowMs ≠ 0
    · simp [hm, hs]
    · simp [hm, hs] at h ⊢
      have := scanAlarms_state_of_none (hhmm nowMs) (msWeekday nowMs) _ store store _ h
      exact ⟨by rw [this.1], this.2⟩

theorem checkAlarms_blocked (ms : Nat) (store : List Alarm) (st : SchedState)
    (hm : st.lastMinuteKey = some (minuteKeyOf ms))
    (htk : st.lastTriggeredKey = some (triggerKeyOf ms)) :
    checkAlarms ms store st = ⟨st, store, none⟩ := by
  simp only [checkAlarms, minuteKeyOf, triggerKeyOf] at hm htk ⊢
  by_cases hs : msSeconds ms ≠ 0
  · simp [hm, hs]
  · simp [hm, htk, hs]

theorem triggerKey_congr (ms1 ms2 : Nat) (h : minuteKeyOf ms1 = minuteKeyOf ms2) :
    triggerKeyOf ms1 = triggerKeyOf ms2 := by
  have h2 : msDayIndex ms1 = msDayIndex ms2 := congrArg Prod.snd h
  simp [triggerKeyOf, msWeekday, h, h2]

theorem checkAlarms_after_fire (nowMs : Nat) (store : List Alarm) (st : SchedState)
    (a : Alarm) (ms2 : Nat) (store2 : List Alarm)
    (h : (checkAlarms nowMs store st).fired = some a)
    (hk : minuteKeyOf ms2 = minuteKeyOf nowMs) :
    checkAlarms ms2 store2 ((checkAlarms nowMs store st).state) =
      ⟨(checkAlarms nowMs store st).state, store2, none⟩ := by
  apply checkAlarms_blocked
  · rw [checkAlarms_state_lastMinuteKey, hk]
  · rw [checkAlarms_fired_lastTriggeredKey _ _ _ _ h, triggerKey_congr ms2 nowMs hk]


/-- Alarm record with the payload fields blank, as the trigger logic ignores
them. -/
def basicAlarm (id time : String) (days : List Nat) (enabled : Bool) : Alarm :=
  { id := id, time := time, label := "", trackUri := "", trackName := "",
    trackArtist := "", trackImage := "", enabled := enabled, days := days,
    createdAt := 0 }

theorem mapGet_mapSet (m : SnoozeMap) (k : String) (v : Nat) :
    mapGet (mapSet m k v) k = some v := by
  induction m with
  | nil => simp [mapSet, mapGet, List.find?]
  | cons q rest ih =>
    by_cases hq : q.1 = k
    · simp [mapSet, mapGet, List.find?, List.any_cons, hq]
    · have hstep : mapSet (q :: rest) k v = q :: mapSet rest k v := by
        unfold mapSet
        by_cases h : rest.any (fun p => p.1 = k) <;> simp [List.any_cons, hq, h]
      rw [hstep]
      simpa [mapGet, List.find?, hq] using ih

theorem mapGet_mapDelete (m : SnoozeMap) (k : String) :
    mapGet (mapDelete m k) k = none := by
  induction m with
  | nil => rfl
  | cons q rest ih =>
    by_cases hq : q.1 = k
    · simpa [mapDelete, List.filter_cons, hq] using ih
    · simp [mapDelete, mapGet, List.filter_cons, List.find?, hq] at ih ⊢

theorem checkAlarms_fired_snoozed (nowMs : Nat) (store : List Alarm)
    (st : SchedState) (a : Alarm) (h : (checkAlarms nowMs store st).fired = some a) :
    ((mapGet st.snoozed a.id).getD 0 ≠ 0 ∧
       (checkAlarms nowMs store st).state.snoozed = mapDelete st.snoozed a.id) ∨
    ((mapGet st.snoozed a.id).getD 0 = 0 ∧
       (checkAlarms nowMs store st).state.snoozed = st.snoozed) := by
  simp only [checkAlarms, minuteKeyOf, triggerKeyOf] at h ⊢
  by_cases hm : st.lastMinuteKey = some (hhmm nowMs, msDayIndex nowMs)
  · by_cases hs : msSeconds nowMs ≠ 0
    · simp [hm, hs] at h
    · by_cases htk : st.lastTriggeredKey = some (((hhmm nowMs, msDayIndex nowMs) : MinuteKey), msWeekday nowMs)
      · simp [hm, hs, htk] at h
      · simp [hm, hs, htk] at h ⊢
        exact scanAlarms_fired_snoozed _ _ _ _ _ _ _ h
  · by_cases hs : msSeconds nowMs ≠ 0
    · simp [hm, hs] at h
    · simp [hm, hs] at h ⊢
      exact scanAlarms_fired_snoozed _ _ _ _ _ _ _ h

theorem checkAlarms_store_of_fired (nowMs : Nat) (store : List Alarm)
    (st : SchedState) (a : Alarm) (h : (checkAlarms nowMs store st).fired = some a) :
    (checkAlarms nowMs store st).store =
      if (mapGet st.snoozed a.id).getD 0 = 0 ∧ a.days = [] then disableFirst store a.id
      else store := by
  simp only [checkAlarms, minuteKeyOf, triggerKeyOf] at h ⊢
  by_cases hm : st.lastMinuteKey = some (hhmm nowMs, msDayIndex nowMs)
  · by_cases hs : msSeconds nowMs ≠ 0
    · simp [hm, hs] at h
    · by_cases htk : st.lastTriggeredKey = some (((hhmm nowMs, msDayIndex nowMs) : MinuteKey), msWeekday nowMs)
      · simp [hm, hs, htk] at h
      · simp [hm, hs, htk] at h ⊢
        exact scanAlarms_store_of_fired _ _ _ _ _ _ _ h
  · by_cases hs : msSeconds nowMs ≠ 0
    · simp [hm, hs] at h
    · simp [hm, hs] at h ⊢
      exact scanAlarms_store_of_fired _ _ _ _ _ _ _ h

theorem checkAlarms_fired_mem (nowMs : Nat) (store : List Alarm)
    (st : SchedState) (a : Alarm) (h : (checkAlarms nowMs store st).fired = some a) :
    a.enabled = true ∧ a ∈ store := by
  rw [checkAlarms_fired_eq] at h
  by_cases hs : msSeconds nowMs ≠ 0
  · simp [hs] at h
  · by_cases hd : st.lastMinuteKey = some (minuteKeyOf nowMs) ∧
        st.lastTriggeredKey = some (triggerKeyOf nowMs)
    · simp [hs, hd] at h
    · simp [hs, hd] at h
      have hp := List.find?_some h
      have hm := List.mem_of_find?_eq_some h
      refine ⟨?_, hm⟩
      simp [eligibleB] at hp
      exact hp.1


/-- Claim C1 as stated: at every tick, every stored alarm fires if and only
if `currentSeconds == 0`, `currentTime == alarm.time`, the alarm is enabled,
`alarm.days` is empty or contains `currentDay`, and no snooze override is
pending for it. -/
def specC1FiringIff : Prop :=
  ∀ (nowMs : Nat) (store : List Alarm) (st : SchedState) (a : Alarm),
    a ∈ store →
      ((checkAlarms nowMs store st).fired = some a ↔
        (msSeconds nowMs = 0 ∧ hhmm nowMs = a.time ∧ a.enabled = true ∧
         (a.days = [] ∨ a.days.contains (msWeekday nowMs) = true) ∧
         mapGet st.snoozed a.id = none))

/-- C1 counterexample: two enabled one-shot alarms both set to `07:00` at
`07:00:00` — the second satisfies every condition of the claimed `iff` yet
does not fire (only the first stored alarm fires in a tick), so the claim as
stated is false. -/
theorem c1_counterexample : ¬ specC1FiringIff := by
  intro h
  have h2 := (h 25200000
      [basicAlarm "a" "07:00" [] true, basicAlarm "b" "07:00" [] true]
      initState (basicAlarm "b" "07:00" [] true) (by decide)).mpr (by decide)
  exact absurd h2 (by decide)

/-- C1 (amended): a tick fires the *first* stored alarm that is eligible —
eligible meaning enabled and either (no pending override, time matches, day
matches or `days` empty) or (a pending override whose wall-clock minute is
the current minute) — and only when `currentSeconds == 0` and the
`(time, date)` dedup key has not already fired; moreover once a tick fires,
every further tick of the same `(time, date)` minute fires nothing and
leaves the scheduler state unchanged. -/
theorem c1_firing_characterization (nowMs : Nat) (store : List Alarm) (st : SchedState) :
    ((checkAlarms nowMs store st).fired =
      if msSeconds nowMs ≠ 0 then none
      else if st.lastMinuteKey = some (minuteKeyOf nowMs) ∧
                st.lastTriggeredKey = some (triggerKeyOf nowMs) then none
      else store.find? (eligibleB (hhmm nowMs) (msWeekday nowMs) st.snoozed)) ∧
    (∀ (a : Alarm) (ms2 : Nat) (store2 : List Alarm),
      (checkAlarms nowMs store st).fired = some a →
      minuteKeyOf ms2 = minuteKeyOf nowMs →
      (checkAlarms ms2 store2 ((checkAlarms nowMs store st).state)).fired = none ∧
      (checkAlarms ms2 store2 ((checkAlarms nowMs store st).state)).state =
        (checkAlarms nowMs store st).state) := by
  refine ⟨checkAlarms_fired_eq nowMs store st, ?_⟩
  intro a ms2 store2 h hk
  have hblock := checkAlarms_after_fire nowMs store st a ms2 store2 h hk
  exact ⟨by rw [hblock], by rw [hblock]⟩

/-- C1 witness: with a single matching alarm at `07:00:00` (epoch instant
`25200000`), the characterization yields a firing, and the follow-up tick in
the same minute fires nothing. -/
theorem c1_witness :
    (checkAlarms 25200000 [basicAlarm "a" "07:00" [] true] initState).fired =
        some (basicAlarm "a" "07:00" [] true) ∧
    (checkAlarms 25200000 []
        ((checkAlarms 25200000 [basicAlarm "a" "07:00" [] true] initState).state)).fired =
      none := by
  have h := c1_firing_characterization 25200000 [basicAlarm "a" "07:00" [] true] initState
  refine ⟨?_, ?_⟩
  · rw [h.1]
    decide
  · exact (h.2 (basicAlarm "a" "07:00" [] true) 25200000 []
      (by rw [h.1]; decide) rfl).1


/-- C4: when two enabled alarms share the firing minute (both times equal the
current minute, both day sets contain the current weekday, neither snoozed),
the tick fires exactly the first stored one; the second does not fire, and no
further tick of that `(time, date)` minute fires anything. -/
theorem c4_single_fire_per_tick (nowMs : Nat) (st : SchedState) (a1 a2 : Alarm)
    (h1e : a1.enabled = true) (h2e : a2.enabled = true)
    (h1t : a1.time = hhmm nowMs) (h2t : a2.time = hhmm nowMs)
    (h1d : a1.days.contains (msWeekday nowMs) = true)
    (h2d : a2.days.contains (msWeekday nowMs) = true)
    (h1s : mapGet st.snoozed a1.id = none) (h2s : mapGet st.snoozed a2.id = none)
    (hsec : msSeconds nowMs = 0)
    (hded : ¬(st.lastMinuteKey = some (minuteKeyOf nowMs) ∧
              st.lastTriggeredKey = some (triggerKeyOf nowMs)))
    (hne : a1 ≠ a2) :
    (checkAlarms nowMs [a1, a2] st).fired = some a1 ∧
    (checkAlarms nowMs [a1, a2] st).fired ≠ some a2 ∧
    (∀ ms2 store2, minuteKeyOf ms2 = minuteKeyOf nowMs →
      (checkAlarms ms2 store2 ((checkAlarms nowMs [a1, a2] st).state)).fired = none) := by
  have hfired : (checkAlarms nowMs [a1, a2] st).fired = some a1 := by
    rw [checkAlarms_fired_eq, if_neg (by omega), if_neg hded]
    have he1 : eligibleB (hhmm nowMs) (msWeekday nowMs) st.snoozed a1 = true := by
      have hmem : msWeekday nowMs ∈ a1.days := by
        simpa using h1d
      simp [eligibleB, h1e, h1s, h1t, hmem]
    simp [List.find?, he1]
  refine ⟨hfired, ?_, ?_⟩
  · rw [hfired]
    simp [hne]
  · intro ms2 store2 hk
    have hblock := checkAlarms_after_fire nowMs [a1, a2] st a1 ms2 store2 hfired hk
    rw [hblock]

/-- C4 witness: two distinct enabled alarms at `07:00` on a Thursday
(`25200000` is `07:00:00` of epoch day 0, weekday 4): the first fires, the
second does not, and the next tick of that minute is silent. -/
theorem c4_witness :
    (checkAlarms 25200000
        [basicAlarm "a" "07:00" [4] true, basicAlarm "b" "07:00" [4] true]
        initState).fired = some (basicAlarm "a" "07:00" [4] true) ∧
    (checkAlarms 25200000
        [basicAlarm "a" "07:00" [4] true, basicAlarm "b" "07:00" [4] true]
        initState).fired ≠ some (basicAlarm "b" "07:00" [4] true) ∧
    (checkAlarms 25201000
        [basicAlarm "a" "07:00" [4] true, basicAlarm "b" "07:00" [4] true]
        ((checkAlarms 25200000
          [basicAlarm "a" "07:00" [4] true, basicAlarm "b" "07:00" [4] true]
          initState).state)).fired = none := by
  have h := c4_single_fire_per_tick 25200000 initState
    (basicAlarm "a" "07:00" [4] true) (basicAlarm "b" "07:00" [4] true)
    (by decide) (by decide) (by decide) (by decide) (by decide) (by decide)
    (by decide) (by decide) (by decide) (by decide) (by decide)
  exact ⟨h.1, h.2.1, h.2.2 25201000 _ (by decide)⟩


/-- Enabled repeating alarm at `10:00` on Thursdays, the subject of the C2
snooze scenario (epoch day 0 is a Thursday, weekday 4). -/
def alarmTenThu : Alarm := basicAlarm "A" "10:00" [4] true

/-- C2 counterexample: the claim fails for a one-shot alarm.  The one-shot
fires at `10:00:00` and is auto-disabled by that firing; snoozing it then
stores the `10:05` override, but the `10:05:00` tick skips disabled alarms,
so the alarm does not fire exactly once at `10:05` and the override is never
deleted. -/
theorem c2_counterexample :
    (checkAlarms 36000000 [basicAlarm "A" "10:00" [] true] initState).fired =
        some (basicAlarm "A" "10:00" [] true) ∧
    (checkAlarms 36000000 [basicAlarm "A" "10:00" [] true] initState).store =
        [basicAlarm "A" "10:00" [] false] ∧
    mapGet (snoozeAlarm 36000000
        (checkAlarms 36000000 [basicAlarm "A" "10:00" [] true] initState).state
        ⟨true, true⟩ "A" 5).1.snoozed "A" = some 36300000 ∧
    (checkAlarms 36300000 [basicAlarm "A" "10:00" [] false]
        (snoozeAlarm 36000000
          (checkAlarms 36000000 [basicAlarm "A" "10:00" [] true] initState).state
          ⟨true, true⟩ "A" 5).1).fired = none ∧
    mapGet (checkAlarms 36300000 [basicAlarm "A" "10:00" [] false]
        (snoozeAlarm 36000000
          (checkAlarms 36000000 [basicAlarm "A" "10:00" [] true] initState).state
          ⟨true, true⟩ "A" 5).1).state.snoozed "A" = some 36300000 := by
  decide

/-- C2 (amended, for an alarm still enabled when the override matures — in
particular a repeating alarm; a one-shot is auto-disabled by its `10:00`
firing and never fires from the snooze): snoozing alarm `A` for 5 minutes at
`10:00:00` (instant `36000000`)
overwrites its override to `now + 5*60000 = 36300000` and stops the audio
controller; while the override is pending no tick strictly before `10:05`
fires `A` (and the override survives those ticks); at `10:05:00` the alarm
fires, the override is deleted at that firing, and no further tick of the
`10:05` minute fires. -/
theorem c2_snooze_behaviour (st0 st : SchedState) (audio : AudioState) :
    (mapGet (snoozeAlarm 36000000 st0 audio "A" 5).1.snoozed "A" = some 36300000 ∧
     (snoozeAlarm 36000000 st0 audio "A" 5).2.alarmPlaying = false) ∧
    (∀ (ms : Nat) (st1 : SchedState), 36000000 ≤ ms → ms < 36300000 →
      mapGet st1.snoozed "A" = some 36300000 →
      (checkAlarms ms [alarmTenThu] st1).fired = none ∧
      (checkAlarms ms [alarmTenThu] st1).state.snoozed = st1.snoozed) ∧
    (mapGet st.snoozed "A" = some 36300000 →
     st.lastMinuteKey ≠ some (minuteKeyOf 36300000) →
      (checkAlarms 36300000 [alarmTenThu] st).fired = some alarmTenThu ∧
      mapGet (checkAlarms 36300000 [alarmTenThu] st).state.snoozed "A" = none ∧
      (∀ ms2 store2, 36300000 ≤ ms2 → ms2 < 36360000 →
        (checkAlarms ms2 store2
          ((checkAlarms 36300000 [alarmTenThu] st).state)).fired = none)) := by
  refine ⟨⟨?_, rfl⟩, ?_, ?_⟩
  · exact mapGet_mapSet st0.snoozed "A" 36300000
  · intro ms st1 hlo hhi hget
    have hne : hhmm ms ≠ hhmm 36300000 := by
      have hhr : msHours ms = 10 := by
        unfold msHours msPerHour
        omega
      have h5 : msMinutes ms = 0 ∨ msMinutes ms = 1 ∨ msMinutes ms = 2 ∨
          msMinutes ms = 3 ∨ msMinutes ms = 4 := by
        unfold msMinutes msPerMinute
        omega
      unfold hhmm
      rw [hhr]
      rcases h5 with h | h | h | h | h <;> rw [h] <;> decide
    have he : eligibleB (hhmm ms) (msWeekday ms) st1.snoozed alarmTenThu = false := by
      simp [eligibleB, alarmTenThu, basicAlarm, hget, hne]
    have hfn : (checkAlarms ms [alarmTenThu] st1).fired = none := by
      rw [checkAlarms_fired_eq]
      by_cases hs : msSeconds ms ≠ 0
      · simp [hs]
      · by_cases hd : st1.lastMinuteKey = some (minuteKeyOf ms) ∧
            st1.lastTriggeredKey = some (triggerKeyOf ms)
        · simp [hs, hd]
        · simp [hs, hd, List.find?, he]
    exact ⟨hfn, (checkAlarms_none_frame ms [alarmTenThu] st1 hfn).1⟩
  · intro hget hmk
    have hfired : (checkAlarms 36300000 [alarmTenThu] st).fired = some alarmTenThu := by
      rw [checkAlarms_fired_eq, if_neg (by decide),
        if_neg (by intro hc; exact hmk hc.1)]
      have he : eligibleB (hhmm 36300000) (msWeekday 36300000) st.snoozed alarmTenThu = true := by
        simp [eligibleB, alarmTenThu, basicAlarm, hget]
      simp [List.find?, he]
    refine ⟨hfired, ?_, ?_⟩
    · rcases checkAlarms_fired_snoozed 36300000 [alarmTenThu] st alarmTenThu hfired with
        ⟨_, hdel⟩ | ⟨hz, _⟩
      · rw [hdel]
        exact mapGet_mapDelete st.snoozed "A"
      · rw [show alarmTenThu.id = "A" from rfl, hget] at hz
        simp at hz
    · intro ms2 store2 hlo2 hhi2
      have hk : minuteKeyOf ms2 = minuteKeyOf 36300000 := by
        have hhr : msHours ms2 = 10 := by
          unfold msHours msPerHour
          omega
        have hmn : msMinutes ms2 = 5 := by
          unfold msMinutes msPerMinute
          omega
        have hdi : msDayIndex ms2 = 0 := by
          unfold msDayIndex msPerDay
          omega
        unfold minuteKeyOf hhmm
        rw [hhr, hmn, hdi]
        decide
      have hblock := checkAlarms_after_fire 36300000 [alarmTenThu] st alarmTenThu
        ms2 store2 hfired hk
      rw [hblock]

/-- C2 witness: the scenario run concretely from the initial scheduler state:
the override lands at `36300000`, audio is stopped, the `10:01:00` tick is
silent and keeps the override, and the `10:05:00` tick fires and consumes
it, with the `10:05:30` tick silent. -/
theorem c2_witness :
    (mapGet (snoozeAlarm 36000000 initState ⟨true, true⟩ "A" 5).1.snoozed "A" =
        some 36300000 ∧
     (snoozeAlarm 36000000 initState ⟨true, true⟩ "A" 5).2.alarmPlaying = false) ∧
    ((checkAlarms 36060000 [alarmTenThu]
        (snoozeAlarm 36000000 initState ⟨true, true⟩ "A" 5).1).fired = none) ∧
    ((checkAlarms 36300000 [alarmTenThu]
        (snoozeAlarm 36000000 initState ⟨true, true⟩ "A" 5).1).fired =
      some alarmTenThu) := by
  have h := c2_snooze_behaviour initState
    (snoozeAlarm 36000000 initState ⟨true, true⟩ "A" 5).1 ⟨true, true⟩
  refine ⟨h.1, ?_, ?_⟩
  · exact (h.2.1 36060000 (snoozeAlarm 36000000 initState ⟨true, true⟩ "A" 5).1
      (by decide) (by decide) (by decide)).1
  · exact (h.2.2 (by decide) (by decide)).1


/-- First-occurrence behaviour of the one-shot disable: looking up the fired
id in the disabled store returns the stored record with `enabled` cleared. -/
theorem find?_disableFirst (store : List Alarm) (i : String) :
    (disableFirst store i).find? (fun b => b.id = i) =
      (store.find? (fun b => b.id = i)).map (fun b => { b with enabled := false }) := by
  induction store with
  | nil => rfl
  | cons b rest ih =>
    by_cases hb : b.id = i
    · simp [disableFirst, List.find?, hb]
    · simp [disableFirst, List.find?, hb, ih]

/-- C3 counterexample: an *enabled* one-shot alarm (empty `days`) with a
matured snooze override fires at the override's minute, yet the stored
record's `enabled` field is left `true` — the store is not touched at all on
the snooze path, so "one-shot alarms are disabled upon firing" fails as
stated.  (The state is reachable: the one-shot fired and was disabled, the
user snoozed it and then re-enabled it via `toggleAlarm` before the override
matured.) -/
theorem c3_counterexample :
    (checkAlarms 36300000 [basicAlarm "a" "07:00" [] true]
        ⟨[("a", 36300000)], none, none⟩).fired = some (basicAlarm "a" "07:00" [] true) ∧
    (basicAlarm "a" "07:00" [] true).days = [] ∧
    (checkAlarms 36300000 [basicAlarm "a" "07:00" [] true]
        ⟨[("a", 36300000)], none, none⟩).store = [basicAlarm "a" "07:00" [] true] ∧
    (basicAlarm "a" "07:00" [] true).enabled = true := by
  decide

/-- C3 (amended): a fired alarm was enabled in the store; when it fires via
the normal time/day match (no pending override) and its `days` is empty, the
store written before the callback has the first record with its id disabled;
when it fires via the normal match with non-empty `days`, or via a maturing
snooze override (whatever its `days`), the store is unchanged. -/
theorem c3_one_shot_disabled_on_fire (nowMs : Nat) (store : List Alarm)
    (st : SchedState) (a : Alarm)
    (h : (checkAlarms nowMs store st).fired = some a) :
    a.enabled = true ∧
    ((mapGet st.snoozed a.id).getD 0 = 0 → a.days = [] →
      (checkAlarms nowMs store st).store = disableFirst store a.id ∧
      (checkAlarms nowMs store st).store.find? (fun b => b.id = a.id) =
        (store.find? (fun b => b.id = a.id)).map (fun b => { b with enabled := false })) ∧
    ((mapGet st.snoozed a.id).getD 0 = 0 → a.days ≠ [] →
      (checkAlarms nowMs store st).store = store) ∧
    ((mapGet st.snoozed a.id).getD 0 ≠ 0 →
      (checkAlarms nowMs store st).store = store) := by
  have hstore := checkAlarms_store_of_fired nowMs store st a h
  refine ⟨(checkAlarms_fired_mem nowMs store st a h).1, ?_, ?_, ?_⟩
  · intro hz hde
    rw [hstore, if_pos ⟨hz, hde⟩]
    exact ⟨rfl, find?_disableFirst store a.id⟩
  · intro hz hde
    rw [hstore, if_neg (by intro hc; exact hde hc.2)]
  · intro hz
    rw [hstore, if_neg (by intro hc; exact hz hc.1)]

/-- C3 witness: a one-shot alarm firing by the normal match at `07:00:00` is
disabled in the written store, and a repeating alarm firing the same way
leaves the store untouched. -/
theorem c3_witness :
    (checkAlarms 25200000 [basicAlarm "a" "07:00" [] true] initState).store =
        [basicAlarm "a" "07:00" [] false] ∧
    (checkAlarms 25200000 [basicAlarm "b" "07:00" [4] true] initState).store =
        [basicAlarm "b" "07:00" [4] true] := by
  have h1 := c3_one_shot_disabled_on_fire 25200000 [basicAlarm "a" "07:00" [] true]
    initState (basicAlarm "a" "07:00" [] true) (by decide)
  have h2 := c3_one_shot_disabled_on_fire 25200000 [basicAlarm "b" "07:00" [4] true]
    initState (basicAlarm "b" "07:00" [4] true) (by decide)
  refine ⟨?_, ?_⟩
  · rw [(h1.2.1 (by decide) (by decide)).1]
    decide
  · rw [h2.2.2.1 (by decide) (by decide)]


/-- The bounded day scan returns the first index satisfying the predicate. -/
theorem scanDaysAux_some (p : Nat → Bool) (fuel : Nat) :
    ∀ (i x : Nat), scanDaysAux p i fuel = some x →
      i ≤ x ∧ x < i + fuel ∧ p x = true ∧ ∀ j, i ≤ j → j < x → p j = false := by
  induction fuel with
  | zero =>
    intro i x h
    simp [scanDaysAux] at h
  | succ n ih =>
    intro i x h
    simp only [scanDaysAux] at h
    by_cases hp : p i = true
    · rw [if_pos hp] at h
      cases h
      exact ⟨Nat.le_refl i, by omega, hp, fun j hj1 hj2 => by omega⟩
    · rw [if_neg hp] at h
      have hpf : p i = false := by
        simpa using hp
      obtain ⟨h1, h2, h3, h4⟩ := ih (i + 1) x h
      refine ⟨by omega, by omega, h3, ?_⟩
      intro j hj1 hj2
      by_cases hji : j = i
      · rw [hji]
        exact hpf
      · exact h4 j (by omega) hj2

/-- When the bounded day scan fails, no index in range satisfies the
predicate. -/
theorem scanDaysAux_none (p : Nat → Bool) (fuel : Nat) :
    ∀ (i : Nat), scanDaysAux p i fuel = none →
      ∀ j, i ≤ j → j < i + fuel → p j = false := by
  induction fuel with
  | zero =>
    intro i _ j hj1 hj2
    omega
  | succ n ih =>
    intro i h j hj1 hj2
    simp only [scanDaysAux] at h
    by_cases hp : p i = true
    · rw [if_pos hp] at h
      cases h
    · rw [if_neg hp] at h
      by_cases hji : j = i
      · rw [hji]
        simpa using hp
      · exact ih (i + 1) h j (by omega) (by omega)

/-- The enabled alarm of the C5 scenario: `06:30` on Mondays and Wednesdays. -/
def monWedAlarm : Alarm := basicAlarm "w" "06:30" [1, 3] true

/-- C5: on a Tuesday at `08:00` (epoch instant `460800000`, weekday 2), the
next occurrence over the enabled `[Mon, Wed]` `06:30` alarm is Wednesday
`06:30` (instant `541800000`, weekday 3) with delta `81000000` ms; for any
day-scoped alarm the candidate instant is the first of the next 7 calendar
days whose weekday is in `days` and whose time instant is still in the
future, defaulting to the naive tomorrow-at-time when the scan fails; and
`getNextAlarmTime` returns `none` when no alarm is enabled. -/
theorem c5_next_alarm_time :
    (getNextAlarmTime 460800000 [monWedAlarm] =
        some ⟨monWedAlarm, 541800000, 81000000⟩ ∧
      msWeekday 460800000 = 2 ∧ hhmm 460800000 = "08:00" ∧
      msWeekday 541800000 = 3 ∧ hhmm 541800000 = "06:30" ∧
      541800000 - 460800000 = 81000000) ∧
    (∀ (nowMs : Nat) (a : Alarm), a.days ≠ [] →
      (∃ i, i < 7 ∧
        dayCandidate nowMs a.days (parseHM a.time).1 (parseHM a.time).2 i = true ∧
        (∀ j, j < i →
          dayCandidate nowMs a.days (parseHM a.time).1 (parseHM a.time).2 j = false) ∧
        nextCandidate nowMs a = dayStartPlus nowMs i (parseHM a.time).1 (parseHM a.time).2) ∨
      ((∀ i, i < 7 →
          dayCandidate nowMs a.days (parseHM a.time).1 (parseHM a.time).2 i = false) ∧
        nextCandidate nowMs a = naiveCandidate nowMs (parseHM a.time).1 (parseHM a.time).2)) ∧
    (∀ (nowMs : Nat) (alarms : List Alarm),
      (∀ a ∈ alarms, a.enabled = false) → getNextAlarmTime nowMs alarms = none) := by
  refine ⟨by decide, ?_, ?_⟩
  · intro nowMs a hne
    simp only [nextCandidate, if_pos hne]
    cases hscan : scanDaysAux
        (dayCandidate nowMs a.days (parseHM a.time).1 (parseHM a.time).2) 0 7 with
    | none =>
      right
      have hall := scanDaysAux_none _ 7 0 hscan
      exact ⟨fun i hi => hall i (by omega) (by omega), rfl⟩
    | some i =>
      left
      obtain ⟨h1, h2, h3, h4⟩ := scanDaysAux_some _ 7 0 i hscan
      exact ⟨i, by omega, h3, fun j hj => h4 j (by omega) hj, rfl⟩
  · intro nowMs alarms hall
    have hfil : alarms.filter (fun a => a.enabled) = [] := by
      rw [List.filter_eq_nil_iff]
      intro a ha
      simp [hall a ha]
    simp [getNextAlarmTime, hfil]

/-- C5 witness: the scenario alarm's candidate is pinned to scan index 1 by
the characterization, and a store whose only alarm is disabled yields no
next occurrence. -/
theorem c5_witness :
    getNextAlarmTime 460800000 [monWedAlarm] =
        some ⟨monWedAlarm, 541800000, 81000000⟩ ∧
    nextCandidate 460800000 monWedAlarm = 541800000 ∧
    getNextAlarmTime 460800000 [basicAlarm "x" "06:30" [] false] = none := by
  have h := c5_next_alarm_time
  refine ⟨h.1.1, ?_, h.2.2 460800000 [basicAlarm "x" "06:30" [] false] (by decide)⟩
  rcases h.2.1 460800000 monWedAlarm (by decide) with
    ⟨i, hi7, hpi, hprev, hval⟩ | ⟨hall, _⟩
  · have hi : i = 1 := by
      by_contra hne
      have h0 : i ≠ 0 := by
        intro h0
        rw [h0] at hpi
        exact absurd hpi (by decide)
      have h1 : (2 : Nat) ≤ i := by omega
      exact absurd (hprev 1 (by omega)) (by decide)
    rw [hi] at hval
    rw [hval]
    decide
  · exact absurd (hall 1 (by omega)) (by decide)


/-- Strategy 1 of `playTrack` does not succeed: no SDK device is registered,
or its play request throws or returns a non-ok status. -/
def strategy1Fails (env : PlayEnv) : Prop :=
  env.deviceId = none ∨ env.sdkPlay ≠ FetchResult.ok

/-- Strategy 2 of `playTrack` does not succeed: the device query throws, no
device exists, or the Connect play request throws or returns non-ok. -/
def strategy2Fails (env : PlayEnv) : Prop :=
  match env.devicesQuery with
  | .error _ => True
  | .ok devices => devices = [] ∨ env.connectPlay ≠ FetchResult.ok

/-- Every `playTrack` call lands in exactly one of the three strategy
outcomes, with the observable effects of that outcome. -/
theorem playTrack_cases (env : PlayEnv) (audio : AudioState) (trackUri : String) :
    (∃ d, env.deviceId = some d ∧ env.sdkPlay = FetchResult.ok ∧
      playTrack env audio trackUri =
        ⟨PlayOutcome.sdkTrue, false, false, none, audio⟩) ∨
    (strategy1Fails env ∧ ¬ strategy2Fails env ∧
      playTrack env audio trackUri =
        ⟨PlayOutcome.connect, true, false, none, audio⟩) ∨
    (strategy1Fails env ∧ strategy2Fails env ∧
      playTrack env audio trackUri =
        ⟨PlayOutcome.fallback, true, true, openSpotifyDeepLink trackUri,
          (playAlarmSound audio env.platformRejectsAudio).2⟩) := by
  obtain ⟨dev, sdk, dq, cp, rej⟩ := env
  by_cases hs1 : (match dev with
      | some _ => decide (sdk = FetchResult.ok)
      | none => false) = true
  · left
    rcases dev with _ | d
    · simp at hs1
    · simp at hs1
      exact ⟨d, rfl, hs1, by simp [playTrack, hs1]⟩
  · have h1f : strategy1Fails ⟨dev, sdk, dq, cp, rej⟩ := by
      rcases dev with _ | d
      · exact Or.inl rfl
      · right
        simpa [strategy1Fails] using hs1
    rcases dq with e | ds
    · right; right
      exact ⟨h1f, by simp [strategy2Fails], by simp [playTrack, hs1, playAlarmSound]⟩
    · rcases ds with _ | ⟨d0, ds2⟩
      · right; right
        refine ⟨h1f, by simp [strategy2Fails], ?_⟩
        simp [playTrack, hs1, playAlarmSound]
      · by_cases hcp : cp = FetchResult.ok
        · right; left
          refine ⟨h1f, by simp [strategy2Fails, hcp], ?_⟩
          rcases hf : List.find? (fun x => x.isActive) (d0 :: ds2) with _ | d1 <;>
            simp [playTrack, hs1, hf, hcp]
        · right; right
          refine ⟨h1f, by simp [strategy2Fails, hcp], ?_⟩
          rcases hf : List.find? (fun x => x.isActive) (d0 :: ds2) with _ | d1 <;>
            simp [playTrack, hs1, hf, hcp, playAlarmSound]


/-- C6: the synthesized alarm WAV header is internally consistent —
`ChunkSize` (bytes 4–7) equals `36 + dataBytes`, `Subchunk2Size`
(bytes 40–43) equals `dataBytes`, the `SampleRate` field (bytes 24–27)
equals the declared `44100` Hz, and the declared sample count
(`Subchunk2Size / 2`, 16-bit mono) equals `SampleRate` times the declared
120-second duration; the allocated buffer is the 44-byte header plus the
sample bytes. -/
theorem c6_wav_header_consistent :
    alarmWavHeader.length = 44 ∧
    readU32le alarmWavHeader 4 = 36 + alarmNumSamples * 2 ∧
    readU32le alarmWavHeader 40 = alarmNumSamples * 2 ∧
    readU32le alarmWavHeader 24 = 44100 ∧
    readU32le alarmWavHeader 24 = alarmSampleRate ∧
    readU32le alarmWavHeader 40 / 2 = alarmSampleRate * alarmDurationSeconds ∧
    alarmDurationSeconds = 120 ∧
    alarmWavByteLength = 44 + readU32le alarmWavHeader 40 := by
  decide

/-- C7: whenever strategy 1 fails, the strategy-2 device query is issued;
whenever strategies 1 and 2 both fail, the call resolves `'fallback'`,
`playAlarmSound()` runs (so the local tone flag is set even if the platform
rejects playback) and `openSpotifyDeepLink` is invoked on the track URI; and
every call resolves with one of the three outcomes — `playTrack` is a total
function of the strategy outcomes, so no strategy exception reaches the
caller. -/
theorem c7_fallback_chain (env : PlayEnv) (audio : AudioState) (trackUri : String) :
    (strategy1Fails env →
      (playTrack env audio trackUri).devicesQueried = true) ∧
    (strategy1Fails env → strategy2Fails env →
      (playTrack env audio trackUri).outcome = PlayOutcome.fallback ∧
      (playTrack env audio trackUri).alarmSoundStarted = true ∧
      (playTrack env audio trackUri).audio.alarmPlaying = true ∧
      (playTrack env audio trackUri).deepLink = openSpotifyDeepLink trackUri) ∧
    ((playTrack env audio trackUri).outcome = PlayOutcome.sdkTrue ∨
      (playTrack env audio trackUri).outcome = PlayOutcome.connect ∨
      (playTrack env audio trackUri).outcome = PlayOutcome.fallback) := by
  rcases playTrack_cases env audio trackUri with
    ⟨d, hdev, hsdk, heq⟩ | ⟨h1, h2, heq⟩ | ⟨h1, h2, heq⟩
  · refine ⟨?_, ?_, ?_⟩
    · intro hfail
      rcases hfail with h | h
      · rw [hdev] at h
        cases h
      · exact absurd hsdk h
    · intro hfail
      rcases hfail with h | h
      · rw [hdev] at h
        cases h
      · exact absurd hsdk h
    · rw [heq]
      left
      rfl
  · exact ⟨fun _ => by rw [heq], fun _ hf2 => absurd hf2 h2, by rw [heq]; right; left; rfl⟩
  · refine ⟨fun _ => by rw [heq], fun _ _ => ?_, by rw [heq]; right; right; rfl⟩
    rw [heq]
    exact ⟨rfl, rfl, rfl, rfl⟩

/-- C7 witness: an environment in which the SDK play request throws and the
device query throws resolves as fallback with the tone started and the deep
link derived from the URI, while the device query itself was attempted. -/
theorem c7_witness :
    (playTrack ⟨some "dev", FetchResult.throws, Except.error (), FetchResult.ok, true⟩
        ⟨true, false⟩ "spotify:track:abc").devicesQueried = true ∧
    (playTrack ⟨some "dev", FetchResult.throws, Except.error (), FetchResult.ok, true⟩
        ⟨true, false⟩ "spotify:track:abc").outcome = PlayOutcome.fallback ∧
    (playTrack ⟨some "dev", FetchResult.throws, Except.error (), FetchResult.ok, true⟩
        ⟨true, false⟩ "spotify:track:abc").audio.alarmPlaying = true ∧
    (playTrack ⟨some "dev", FetchResult.throws, Except.error (), FetchResult.ok, true⟩
        ⟨true, false⟩ "spotify:track:abc").deepLink = some "abc" := by
  have h := c7_fallback_chain
    ⟨some "dev", FetchResult.throws, Except.error (), FetchResult.ok, true⟩
    ⟨true, false⟩ "spotify:track:abc"
  have h1 : strategy1Fails
      ⟨some "dev", FetchResult.throws, Except.error (), FetchResult.ok, true⟩ := by
    right
    decide
  have h2 : strategy2Fails
      ⟨some "dev", FetchResult.throws, Except.error (), FetchResult.ok, true⟩ := by
    trivial
  obtain ⟨ho, hs, hp, hd⟩ := h.2.1 h1 h2
  exact ⟨h.1 h1, ho, hp, by rw [hd]; decide⟩

/-- C10: `playAlarmSound` always returns `true` and sets the playing flag
regardless of whether the platform rejects the underlying playback, so
`isAlarmSoundPlaying` reads `true` afterwards even when no sound is
produced; the flag is cleared only by `stopAlarmSound` (and by the paths
that call it: `pausePlayback`, snooze, dismiss), while `unlockAudio` leaves
it untouched. -/
theorem c10_play_flag_machine (audio : AudioState) (platformRejects : Bool)
    (nowMs minutes : Nat) (st : SchedState) (alarmId : String) :
    (playAlarmSound audio platformRejects).1 = true ∧
    isAlarmSoundPlaying (playAlarmSound audio platformRejects).2 = true ∧
    isAlarmSoundPlaying (stopAlarmSound audio) = false ∧
    (unlockAudio audio).alarmPlaying = audio.alarmPlaying ∧
    pausePlayback audio = stopAlarmSound audio ∧
    isAlarmSoundPlaying (snoozeAlarm nowMs st audio alarmId minutes).2 = false ∧
    isAlarmSoundPlaying (dismissAlarm audio) = false := by
  refine ⟨rfl, rfl, rfl, ?_, rfl, rfl, rfl⟩
  unfold unlockAudio
  by_cases h : audio.isUnlocked <;> simp [h]


/-- Field object `{ time: '07:00' }` used by the storage scenarios. -/
def fields0700 : AlarmFields := { time := "07:00" }

/-- C8 counterexample: with a backing store whose `setItem` throws (quota
exceeded), every saving operation propagates the error to its caller —
`saveAlarms` has no `try`/`catch` — refuting "write failures do not propagate
an error out of the store operations". -/
theorem c8_counterexample :
    createAlarm ⟨StoredData.valid [], true⟩ "a" 0 fields0700 =
        Except.error () ∧
    updateAlarm ⟨StoredData.valid [basicAlarm "a" "07:00" [] true], true⟩ "a"
        { enabled := some false } = Except.error () ∧
    deleteAlarm ⟨StoredData.valid [basicAlarm "a" "07:00" [] true], true⟩
        initState "a" = Except.error () ∧
    toggleAlarm ⟨StoredData.valid [basicAlarm "a" "07:00" [] true], true⟩ "a" =
        Except.error () := by
  decide

/-- C8 (amended): a corrupt or missing backing store is treated as an empty
list by every read; write faults, however, propagate out of every operation
that saves — unconditionally for `createAlarm` and `deleteAlarm`, and for
`updateAlarm`/`toggleAlarm` exactly when the id is present (they return
without saving otherwise); with a healthy store `createAlarm` appends the
new record. -/
theorem c8_storage_fault_handling (s : Storage) (st : SchedState)
    (id newId : String) (createdAt : Nat) (f : AlarmFields) (p : AlarmPatch) :
    ((s.data = StoredData.corrupt ∨ s.data = StoredData.missing) →
      loadAlarms s = [] ∧ getAlarms s = [] ∧ getAlarm s id = none) ∧
    (s.writeFails = true →
      createAlarm s newId createdAt f = Except.error () ∧
      deleteAlarm s st id = Except.error () ∧
      ((loadAlarms s).any (fun a => a.id = id) = true →
        updateAlarm s id p = Except.error () ∧
        toggleAlarm s id = Except.error ()) ∧
      ((loadAlarms s).any (fun a => a.id = id) = false →
        updateAlarm s id p = Except.ok (s, none) ∧
        toggleAlarm s id = Except.ok s)) ∧
    (s.writeFails = false →
      createAlarm s newId createdAt f =
        Except.ok
          ({ s with
              data := StoredData.valid (loadAlarms s ++ [mkAlarmRecord newId createdAt f]) },
            mkAlarmRecord newId createdAt f)) := by
  refine ⟨?_, ?_, ?_⟩
  · rintro (h | h) <;> simp [loadAlarms, getAlarms, getAlarm, h, List.find?]
  · intro hw
    refine ⟨?_, ?_, ?_, ?_⟩
    · simp [createAlarm, saveAlarms, hw, Except.map]
    · simp [deleteAlarm, saveAlarms, hw, Except.map]
    · intro hid
      obtain ⟨x, hx, hpx⟩ := List.any_eq_true.mp hid
      cases hfs : (loadAlarms s).find? (fun a => a.id = id) with
      | none =>
        rw [List.find?_eq_none] at hfs
        exact absurd hpx (by simpa using hfs x hx)
      | some a =>
        exact ⟨by simp [updateAlarm, hfs, saveAlarms, hw, Except.map],
          by simp [toggleAlarm, hid, saveAlarms, hw]⟩
    · intro hid
      have hfn : (loadAlarms s).find? (fun a => a.id = id) = none := by
        rw [List.find?_eq_none]
        intro x hx
        intro hpx
        have : (loadAlarms s).any (fun a => a.id = id) = true :=
          List.any_eq_true.mpr ⟨x, hx, hpx⟩
        rw [hid] at this
        cases this
      exact ⟨by simp [updateAlarm, hfn], by simp [toggleAlarm, hid]⟩
  · intro hw
    simp [createAlarm, saveAlarms, hw, Except.map]

/-- C8 witness: a corrupt store reads as empty; a quota-failing store makes
`createAlarm` return the error; a healthy store appends. -/
theorem c8_witness :
    loadAlarms ⟨StoredData.corrupt, false⟩ = [] ∧
    createAlarm ⟨StoredData.valid [], true⟩ "a" 0 fields0700 =
        Except.error () ∧
    createAlarm ⟨StoredData.valid [], false⟩ "a" 0 fields0700 =
        Except.ok (⟨StoredData.valid [mkAlarmRecord "a" 0 fields0700], false⟩,
          mkAlarmRecord "a" 0 fields0700) := by
  have h1 := c8_storage_fault_handling ⟨StoredData.corrupt, false⟩ initState "x" "a" 0
    fields0700 ({} : AlarmPatch)
  have h2 := c8_storage_fault_handling ⟨StoredData.valid [], true⟩ initState "x" "a" 0
    fields0700 ({} : AlarmPatch)
  have h3 := c8_storage_fault_handling ⟨StoredData.valid [], false⟩ initState "x" "a" 0
    fields0700 ({} : AlarmPatch)
  exact ⟨(h1.1 (Or.inl rfl)).1, (h2.2.1 rfl).1, h3.2.2 rfl⟩

/-- An id-free patch leaves every stored id unchanged. -/
theorem patchFirst_map_id (p : AlarmPatch) (hp : p.id = none) (i : String) :
    ∀ l : List Alarm, (patchFirst p l i).map (fun a => a.id) = l.map (fun a => a.id) := by
  intro l
  induction l with
  | nil => rfl
  | cons b bs ih =>
    by_cases hb : b.id = i <;> simp [patchFirst, hb, applyPatch, hp, ih]

/-- Every record in a patched list is an original record or a patched
original record. -/
theorem mem_patchFirst (p : AlarmPatch) (i : String) :
    ∀ (l : List Alarm) (b : Alarm), b ∈ patchFirst p l i →
      b ∈ l ∨ ∃ x ∈ l, b = applyPatch x p := by
  intro l
  induction l with
  | nil =>
    intro b hb
    cases hb
  | cons c cs ih =>
    intro b hb
    by_cases hc : c.id = i
    · simp only [patchFirst, if_pos hc] at hb
      rcases List.mem_cons.mp hb with h | h
      · exact Or.inr ⟨c, List.mem_cons_self c cs, h⟩
      · exact Or.inl (List.mem_cons_of_mem c h)
    · simp only [patchFirst, if_neg hc] at hb
      rcases List.mem_cons.mp hb with h | h
      · exact Or.inl (by rw [h]; exact List.mem_cons_self c cs)
      · rcases ih b h with h2 | ⟨x, hx, hbx⟩
        · exact Or.inl (List.mem_cons_of_mem c h2)
        · exact Or.inr ⟨x, List.mem_cons_of_mem c hx, hbx⟩

/-- Toggling touches only the `enabled` field: ids and times are unchanged. -/
theorem toggleFirst_map (i : String) :
    ∀ l : List Alarm,
      (toggleFirst l i).map (fun a => a.id) = l.map (fun a => a.id) ∧
      (toggleFirst l i).map (fun a => a.time) = l.map (fun a => a.time) := by
  intro l
  induction l with
  | nil => exact ⟨rfl, rfl⟩
  | cons b bs ih =>
    by_cases hb : b.id = i <;> simp [toggleFirst, hb, ih.1, ih.2]

/-- The `^\d{2}:\d{2}$` invariant with hours 0–23 and minutes 0–59, over the
stored time string (the property the C9 claim asserts; the store itself
never checks it). -/
def validTime (s : String) : Bool :=
  match s.toList with
  | [h1, h2, c, m1, m2] =>
    h1.isDigit && h2.isDigit && c = ':' && m1.isDigit && m2.isDigit &&
      decide ((h1.toNat - 48) * 10 + (h2.toNat - 48) ≤ 23) &&
      decide ((m1.toNat - 48) * 10 + (m2.toNat - 48) ≤ 59)
  | _ => false

/-- C9 counterexample: the store's own operations do not protect the
invariant — `updateAlarm` applied with a patch carrying an `id` field
rewrites the record's id (making it collide with another record), and
`createAlarm` persists a time that fails the `HH:MM` range check. -/
theorem c9_counterexample :
    (((loadAlarms ⟨StoredData.valid [basicAlarm "a" "07:00" [] true,
        basicAlarm "b" "08:00" [] true], false⟩).map (fun a => a.id)).Nodup ∧
     updateAlarm ⟨StoredData.valid [basicAlarm "a" "07:00" [] true,
        basicAlarm "b" "08:00" [] true], false⟩ "a" { id := some "b" } =
      Except.ok (⟨StoredData.valid [basicAlarm "b" "07:00" [] true,
        basicAlarm "b" "08:00" [] true], false⟩,
        some (basicAlarm "b" "07:00" [] true)) ∧
     ¬ (((loadAlarms ⟨StoredData.valid [basicAlarm "b" "07:00" [] true,
        basicAlarm "b" "08:00" [] true], false⟩).map (fun a => a.id)).Nodup)) ∧
    (createAlarm ⟨StoredData.valid [], false⟩ "c" 0 { time := "99:99" } =
        Except.ok (⟨StoredData.valid [basicAlarm "c" "99:99" [] true], false⟩,
          basicAlarm "c" "99:99" [] true) ∧
     validTime (basicAlarm "c" "99:99" [] true).time = false) := by
  decide

/-- C9 (amended): the store operations preserve the id/time invariant only
conditionally — `updateAlarm` leaves every id unchanged provided the patch
carries no `id` field, and preserves time validity provided any patched time
is itself valid; `createAlarm` appends exactly one record carrying the
caller-supplied id and keeps uniqueness when that id is fresh and validity
when the given time is valid; `toggleAlarm` changes no id or time;
`deleteAlarm` filters the list, preserving uniqueness.  (In the application
the patch never contains `id`, ids come from `crypto.randomUUID()`, and the
editor clamps and pads times to valid `HH:MM`.) -/
theorem c9_invariant_preservation (s : Storage) (st : SchedState)
    (id newId : String) (createdAt : Nat) (f : AlarmFields) (p : AlarmPatch) :
    (∀ s2 r, p.id = none → updateAlarm s id p = Except.ok (s2, r) →
      (loadAlarms s2).map (fun a => a.id) = (loadAlarms s).map (fun a => a.id)) ∧
    (∀ s2 r, updateAlarm s id p = Except.ok (s2, r) →
      (∀ b ∈ loadAlarms s, validTime b.time = true) →
      (∀ t, p.time = some t → validTime t = true) →
      ∀ b ∈ loadAlarms s2, validTime b.time = true) ∧
    (∀ s2 a, createAlarm s newId createdAt f = Except.ok (s2, a) →
      a.id = newId ∧ loadAlarms s2 = loadAlarms s ++ [a] ∧
      (newId ∉ (loadAlarms s).map (fun b => b.id) →
        ((loadAlarms s).map (fun b => b.id)).Nodup →
        ((loadAlarms s2).map (fun b => b.id)).Nodup) ∧
      (validTime f.time = true → (∀ b ∈ loadAlarms s, validTime b.time = true) →
        ∀ b ∈ loadAlarms s2, validTime b.time = true)) ∧
    (∀ s2, toggleAlarm s id = Except.ok s2 →
      (loadAlarms s2).map (fun a => a.id) = (loadAlarms s).map (fun a => a.id) ∧
      (loadAlarms s2).map (fun a => a.time) = (loadAlarms s).map (fun a => a.time)) ∧
    (∀ s2 st2, deleteAlarm s st id = Except.ok (s2, st2) →
      loadAlarms s2 = (loadAlarms s).filter (fun a => a.id ≠ id) ∧
      (((loadAlarms s).map (fun b => b.id)).Nodup →
        ((loadAlarms s2).map (fun b => b.id)).Nodup)) := by
  refine ⟨?_, ?_, ?_, ?_, ?_⟩
  · intro s2 r hp hup
    cases hfs : (loadAlarms s).find? (fun a => a.id = id) with
    | none =>
      simp [updateAlarm, hfs] at hup
      rw [hup.1]
    | some a =>
      cases hw : s.writeFails with
      | true => simp [updateAlarm, hfs, saveAlarms, hw, Except.map] at hup
      | false =>
        simp [updateAlarm, hfs, saveAlarms, hw, Except.map] at hup
        rw [← hup.1]
        simpa [loadAlarms] using patchFirst_map_id p hp id (loadAlarms s)
  · intro s2 r hup hall hpt
    cases hfs : (loadAlarms s).find? (fun a => a.id = id) with
    | none =>
      simp [updateAlarm, hfs] at hup
      rw [hup.1] at hall
      exact hall
    | some a =>
      cases hw : s.writeFails with
      | true => simp [updateAlarm, hfs, saveAlarms, hw, Except.map] at hup
      | false =>
        simp [updateAlarm, hfs, saveAlarms, hw, Except.map] at hup
        intro b hb
        rw [← hup.1] at hb
        simp only [loadAlarms] at hb
        rcases mem_patchFirst p id (loadAlarms s) b hb with h | ⟨x, hx, hbx⟩
        · exact hall b h
        · rw [hbx]
          cases hpt2 : p.time with
          | none => simpa [applyPatch, hpt2] using hall x hx
          | some t => simpa [applyPatch, hpt2] using hpt t hpt2
  · intro s2 a hcr
    cases hw : s.writeFails with
    | true => simp [createAlarm, saveAlarms, hw, Except.map] at hcr
    | false =>
      simp [createAlarm, saveAlarms, hw, Except.map] at hcr
      obtain ⟨hs2, ha⟩ := hcr
      have hload : loadAlarms s2 = loadAlarms s ++ [a] := by
        rw [← hs2, ← ha]
        simp [loadAlarms]
      refine ⟨by rw [← ha]; rfl, hload, ?_, ?_⟩
      · intro hfresh hnd
        rw [hload, List.map_append, List.nodup_append]
        refine ⟨hnd, List.nodup_singleton _, ?_⟩
        intro x hx hx1
        simp at hx1
        rw [hx1, ← ha] at hx
        exact hfresh hx
      · intro hvt hall b hb
        rw [hload] at hb
        rcases List.mem_append.mp hb with h | h
        · exact hall b h
        · simp at h
          rw [h, ← ha]
          exact hvt
  · intro s2 htg
    cases hany : (loadAlarms s).any (fun a => a.id = id) with
    | false =>
      simp [toggleAlarm, hany] at htg
      rw [htg]
      exact ⟨rfl, rfl⟩
    | true =>
      cases hw : s.writeFails with
      | true => simp [toggleAlarm, hany, saveAlarms, hw] at htg
      | false =>
        simp [toggleAlarm, hany, saveAlarms, hw] at htg
        rw [← htg]
        simpa [loadAlarms] using toggleFirst_map id (loadAlarms s)
  · intro s2 st2 hdel
    cases hw : s.writeFails with
    | true => simp [deleteAlarm, saveAlarms, hw, Except.map] at hdel
    | false =>
      simp [deleteAlarm, saveAlarms, hw, Except.map] at hdel
      have hload : loadAlarms s2 = (loadAlarms s).filter (fun a => a.id ≠ id) := by
        rw [← hdel.1]
        simp [loadAlarms]
      refine ⟨hload, ?_⟩
      intro hnd
      rw [hload]
      exact hnd.sublist (List.Sublist.map _ (List.filter_sublist _))

/-- C9 witness: an id-free `enabled` patch leaves the id list alone, and a
fresh create keeps the id list duplicate-free with a valid stored time. -/
theorem c9_witness :
    (loadAlarms ⟨StoredData.valid [{ basicAlarm "a" "07:00" [] true with
        enabled := false }], false⟩).map (fun a => a.id) = ["a"] ∧
    ((loadAlarms ⟨StoredData.valid [basicAlarm "a" "07:00" [] true,
        mkAlarmRecord "b" 0 fields0700], false⟩).map (fun b => b.id)).Nodup := by
  have h1 := (c9_invariant_preservation
      ⟨StoredData.valid [basicAlarm "a" "07:00" [] true], false⟩ initState
      "a" "b" 0 fields0700 { enabled := some false }).1
      ⟨StoredData.valid [{ basicAlarm "a" "07:00" [] true with enabled := false }], false⟩
      (some { basicAlarm "a" "07:00" [] true with enabled := false })
      rfl (by decide)
  have h3 := (c9_invariant_preservation
      ⟨StoredData.valid [basicAlarm "a" "07:00" [] true], false⟩ initState
      "a" "b" 0 fields0700 { enabled := some false }).2.2.1
      ⟨StoredData.valid [basicAlarm "a" "07:00" [] true,
        mkAlarmRecord "b" 0 fields0700], false⟩
      (mkAlarmRecord "b" 0 fields0700) (by decide)
  refine ⟨?_, h3.2.2.1 (by decide) (by decide)⟩
  rw [h1]
  decide

end WakeWave
